import Mathlib

/-!
Verification of the SmartHome identification-to-session pipeline.

Shallow embedding of the core of the repository:
  - `facial_req.py` (FaceRecognition): per-frame vote, debounce, IdentityBox writes;
  - `driver.py` (SmartHomeDriver): the poll loop handing identity changes to login;
  - `logic.py` (Users, WeatherService, SmartLightController, MusicPlayer);
  - `error_handler.py` (ErrorHandler, the handle error wrapper).

Pure computations are translated to Lean functions; the Python dicts become
association lists with Python `dict` update semantics; exceptions become
`Except`; the two background workers and the shared lock-guarded cell become
an explicit small-step machine over atomic critical sections.
-/

namespace SmartHome

/-! ## Vote tally (facial_req.py, FaceRecognition.run lines 137-152)

Per embedding, `matches` yields the list of matched known names
(`data["names"][i]` for each index `i` with `matches[i]` true), scanned in
index order.  The Python dict `counts` maps each name to its number of
matched occurrences; its key order is the order of first occurrence.
`max(counts, key=counts.get)` returns the first key (in that order) whose
count is not exceeded by any later key. -/

/-- Keys of the Python dict `counts`: names in order of first occurrence
while scanning the matched indices. -/
def firstOccKeys (matched : List String) : List String :=
  matched.foldl (fun ks n => if n ∈ ks then ks else ks ++ [n]) []

/-- Python `max(ks, key=f)` over a nonempty iterable `k :: ks`: keeps the
current best and replaces it only on a strictly larger key value, hence
returns the first maximiser in iteration order. -/
def firstMaxBy (f : String → Nat) (k : String) (ks : List String) : String :=
  ks.foldl (fun best n => if f n > f best then n else best) k

/-- The vote winner of one embedding: `none` when no known face matched
(`True in matches` is false), otherwise `max(counts, key=counts.get)`. -/
def voteWinner (matched : List String) : Option String :=
  match firstOccKeys matched with
  | [] => none
  | k :: ks => some (firstMaxBy (fun n => matched.count n) k ks)

theorem foldl_firstOcc_mem (l acc : List String) (x : String) :
    x ∈ l.foldl (fun ks n => if n ∈ ks then ks else ks ++ [n]) acc ↔
      x ∈ l ∨ x ∈ acc := by
  induction l generalizing acc with
  | nil => simp
  | cons n l ih =>
    simp only [List.foldl_cons, ih]
    by_cases hn : n ∈ acc
    · simp only [if_pos hn, List.mem_cons]
      constructor
      · rintro (h | h)
        · exact Or.inl (Or.inr h)
        · exact Or.inr h
      · rintro ((rfl | h) | h)
        · exact Or.inr hn
        · exact Or.inl h
        · exact Or.inr h
    · simp only [if_neg hn, List.mem_append, List.mem_singleton, List.mem_cons]
      tauto

theorem mem_firstOccKeys (l : List String) (x : String) :
    x ∈ firstOccKeys l ↔ x ∈ l := by
  simp [firstOccKeys, foldl_firstOcc_mem]

theorem firstOccKeys_ne_nil (l : List String) (h : l ≠ []) :
    firstOccKeys l ≠ [] := by
  cases l with
  | nil => exact absurd rfl h
  | cons a l =>
    intro hcon
    have : a ∈ firstOccKeys (a :: l) := (mem_firstOccKeys _ _).mpr (List.mem_cons_self a l)
    rw [hcon] at this
    exact List.not_mem_nil a this

theorem firstMaxBy_le (f : String → Nat) (k : String) (ks : List String) :
    ∀ x ∈ k :: ks, f x ≤ f (firstMaxBy f k ks) := by
  induction ks generalizing k with
  | nil =>
    intro x hx
    rcases List.mem_cons.mp hx with rfl | h
    · exact le_refl _
    · exact absurd h (List.not_mem_nil x)
  | cons n ks ih =>
    intro x hx
    have hstep : firstMaxBy f k (n :: ks) =
        firstMaxBy f (if f n > f k then n else k) ks := rfl
    rw [hstep]
    have hbase : ∀ y, y = k ∨ y = n →
        f y ≤ f (if f n > f k then n else k) := by
      intro y hy
      by_cases hnk : f n > f k
      · rcases hy with rfl | rfl
        · simpa [hnk] using le_of_lt hnk
        · simp [hnk]
      · rcases hy with rfl | rfl
        · simp [hnk]
        · simpa [hnk] using le_of_not_lt hnk
    rcases List.mem_cons.mp hx with rfl | hx
    · exact le_trans (hbase x (Or.inl rfl))
        (ih _ _ (List.mem_cons_self _ _))
    · rcases List.mem_cons.mp hx with rfl | hx
      · exact le_trans (hbase x (Or.inr rfl))
          (ih _ _ (List.mem_cons_self _ _))
      · exact ih _ _ (List.mem_cons.mpr (Or.inr hx))

theorem firstMaxBy_mem (f : String → Nat) (k : String) (ks : List String) :
    firstMaxBy f k ks ∈ k :: ks := by
  induction ks generalizing k with
  | nil => exact List.mem_cons_self _ _
  | cons n ks ih =>
    have hstep : firstMaxBy f k (n :: ks) =
        firstMaxBy f (if f n > f k then n else k) ks := rfl
    rw [hstep]
    by_cases hnk : f n > f k
    · rw [if_pos hnk]
      rcases List.mem_cons.mp (ih n) with h | h
      · rw [h]; exact List.mem_cons.mpr (Or.inr (List.mem_cons_self _ _))
      · exact List.mem_cons.mpr (Or.inr (List.mem_cons.mpr (Or.inr h)))
    · rw [if_neg hnk]
      rcases List.mem_cons.mp (ih k) with h | h
      · rw [h]; exact List.mem_cons_self _ _
      · exact List.mem_cons.mpr (Or.inr (List.mem_cons.mpr (Or.inr h)))

theorem firstMaxBy_first (f : String → Nat) (k : String) (ks : List String) :
    ∃ l₁ l₂, k :: ks = l₁ ++ firstMaxBy f k ks :: l₂ ∧
      ∀ x ∈ l₁, f x < f (firstMaxBy f k ks) := by
  induction ks generalizing k with
  | nil => exact ⟨[], [], rfl, by simp⟩
  | cons n ks ih =>
    have hstep : firstMaxBy f k (n :: ks) =
        firstMaxBy f (if f n > f k then n else k) ks := rfl
    by_cases hnk : f n > f k
    · obtain ⟨l₁, l₂, hdec, hlt⟩ := ih n
      refine ⟨k :: l₁, l₂, ?_, ?_⟩
      · rw [hstep, if_pos hnk]
        simpa using congrArg (k :: ·) hdec
      · intro x hx
        rcases List.mem_cons.mp hx with rfl | hx
        · rw [hstep, if_pos hnk]
          exact lt_of_lt_of_le hnk
            (firstMaxBy_le f n ks n (List.mem_cons_self _ _))
        · rw [hstep, if_pos hnk]
          exact hlt x hx
    · obtain ⟨l₁, l₂, hdec, hlt⟩ := ih k
      rw [hstep, if_neg hnk]
      cases l₁ with
      | nil =>
        simp only [List.nil_append, List.cons.injEq] at hdec
        obtain ⟨hk, hks⟩ := hdec
        refine ⟨[], n :: ks, ?_, by simp⟩
        rw [List.nil_append, ← hk]
      | cons a l₁ =>
        simp only [List.cons_append, List.cons.injEq] at hdec
        obtain ⟨hak, hks⟩ := hdec
        refine ⟨k :: n :: l₁, l₂, ?_, ?_⟩
        · simp only [List.cons_append]
          nth_rewrite 1 [hks]
          rfl
        · intro x hx
          have hfa : f a < f (firstMaxBy f k ks) :=
            hlt a (List.mem_cons_self _ _)
          have hfk : f k < f (firstMaxBy f k ks) := by
            rw [congrArg f hak]; exact hfa
          rcases List.mem_cons.mp hx with rfl | hx
          · exact hfk
          · rcases List.mem_cons.mp hx with rfl | hx
            · exact lt_of_le_of_lt (le_of_not_lt hnk) hfk
            · exact hlt x (List.mem_cons.mpr (Or.inr hx))

/-- Claim C5: for every frame whose embedding yields at least one match, the
vote winner exists, is one of the matched names, has the highest
matched-occurrence count, and in the event of a tie is the first name
encountered in first-occurrence (insertion) order: every key scanned before
the winner has a strictly smaller count.  `voteWinner` is a function of the
multiset of matched names, so the result is deterministic across runs. -/
theorem vote_winner_spec (matched : List String) (h : matched ≠ []) :
    ∃ w, voteWinner matched = some w ∧ w ∈ matched ∧
      (∀ n ∈ matched, matched.count n ≤ matched.count w) ∧
      ∃ l₁ l₂, firstOccKeys matched = l₁ ++ w :: l₂ ∧
        ∀ x ∈ l₁, matched.count x < matched.count w := by
  cases hk : firstOccKeys matched with
  | nil => exact absurd hk (firstOccKeys_ne_nil matched h)
  | cons k ks =>
    refine ⟨firstMaxBy (fun n => matched.count n) k ks, ?_, ?_, ?_, ?_⟩
    · simp [voteWinner, hk]
    · have hmem := firstMaxBy_mem (fun n => matched.count n) k ks
      rw [← hk] at hmem
      exact (mem_firstOccKeys _ _).mp hmem
    · intro n hn
      have hn' : n ∈ k :: ks := by
        rw [← hk]; exact (mem_firstOccKeys _ _).mpr hn
      exact firstMaxBy_le (fun n => matched.count n) k ks n hn'
    · obtain ⟨l₁, l₂, hdec, hlt⟩ :=
        firstMaxBy_first (fun n => matched.count n) k ks
      exact ⟨l₁, l₂, hdec, hlt⟩

/-- Witness for `vote_winner_spec` at a tied input: "bob" and "alice" both
have two matched occurrences and "bob" is scanned first. -/
theorem vote_winner_spec_witness :
    (["bob", "alice", "alice", "bob"] : List String) ≠ [] ∧
      (∃ w, voteWinner ["bob", "alice", "alice", "bob"] = some w ∧
        w ∈ (["bob", "alice", "alice", "bob"] : List String) ∧
        (∀ n ∈ (["bob", "alice", "alice", "bob"] : List String),
          List.count n ["bob", "alice", "alice", "bob"] ≤
            List.count w ["bob", "alice", "alice", "bob"]) ∧
        ∃ l₁ l₂, firstOccKeys ["bob", "alice", "alice", "bob"] = l₁ ++ w :: l₂ ∧
          ∀ x ∈ l₁, List.count x ["bob", "alice", "alice", "bob"] <
            List.count w ["bob", "alice", "alice", "bob"]) :=
  ⟨by decide, vote_winner_spec ["bob", "alice", "alice", "bob"] (by decide)⟩

/-! ## IdentityBox and the detector debounce (facial_req.py lines 28-30, 155-160)

`FaceRecognition` holds `_person` and `_new_person_found` behind `_lock`;
the detection loop keeps the local variable `currentname` and performs the
locked write only when the winner differs from it. -/

/-- The shared cell guarded by `FaceRecognition._lock`. -/
structure IdentityBox where
  person : String
  changed : Bool
deriving DecidableEq, Repr

/-- One embedding processed inside the frame loop (facial_req.py lines
128-163): `matched` is the list of known names at matched indices; when a
winner exists and differs from the local `currentname`, the detector takes
the lock, writes `_person` and `_new_person_found := true`, and updates its
local value.  Returns the new local name, the new box, and whether the
shared write happened. -/
def detEncodingStep (currentname : String) (box : IdentityBox)
    (matched : List String) : String × IdentityBox × Bool :=
  match voteWinner matched with
  | none => (currentname, box, false)
  | some w =>
    if currentname ≠ w then (w, ⟨w, true⟩, true) else (currentname, box, false)

/-- The detection loop over a stream of embeddings: threads the local
`currentname` and the box, counting shared writes. -/
def detRun (currentname : String) (box : IdentityBox) :
    List (List String) → String × IdentityBox × Nat
  | [] => (currentname, box, 0)
  | matched :: rest =>
    let s := detEncodingStep currentname box matched
    let r := detRun s.1 s.2.1 rest
    (r.1, r.2.1, (if s.2.2 then 1 else 0) + r.2.2)

theorem detRun_stable (box : IdentityBox) (frames : List (List String))
    (w : String) (hw : ∀ f ∈ frames, voteWinner f = some w) :
    detRun w box frames = (w, box, 0) := by
  induction frames with
  | nil => rfl
  | cons m rest ih =>
    have hm : voteWinner m = some w := hw m (List.mem_cons_self _ _)
    have hstep : detEncodingStep w box m = (w, box, false) := by
      simp [detEncodingStep, hm]
    simp [detRun, hstep, ih (fun f hf => hw f (List.mem_cons.mpr (Or.inr hf)))]

/-- Claim C2: over any sequence of processed embeddings whose vote winner is
the same person `w`, the detector performs the shared IdentityBox write at
most once; and a single step performs the shared write exactly when a
winner exists and differs from the detector's local last-emitted name. -/
theorem detector_debounce (c : String) (box : IdentityBox)
    (frames : List (List String)) (w : String)
    (hw : ∀ f ∈ frames, voteWinner f = some w) :
    (detRun c box frames).2.2 ≤ 1 ∧
    ∀ c' b' matched, (detEncodingStep c' b' matched).2.2 = true ↔
      ∃ w', voteWinner matched = some w' ∧ c' ≠ w' := by
  constructor
  · cases frames with
    | nil => simp [detRun]
    | cons m rest =>
      have hm : voteWinner m = some w := hw m (List.mem_cons_self _ _)
      have hrest : ∀ f ∈ rest, voteWinner f = some w :=
        fun f hf => hw f (List.mem_cons.mpr (Or.inr hf))
      by_cases hc : c = w
      · subst hc
        rw [detRun_stable box (m :: rest) c hw]
        exact Nat.zero_le 1
      · have hstep : detEncodingStep c box m = (w, ⟨w, true⟩, true) := by
          simp [detEncodingStep, hm, hc]
        simp [detRun, hstep, detRun_stable _ rest w hrest]
  · intro c' b' matched
    cases hv : voteWinner matched with
    | none => simp [detEncodingStep, hv]
    | some w' =>
      by_cases hc : c' = w'
      · simp [detEncodingStep, hv, hc]
      · simp only [detEncodingStep, hv, if_pos hc]
        constructor
        · intro _; exact ⟨w', rfl, hc⟩
        · intro _; simp [hc]

/-- Witness for `detector_debounce`: three frames all recognizing "alice"
from the initial local name "unknown" (facial_req.py line 78) produce
exactly one shared write. -/
theorem detector_debounce_witness :
    (detRun "unknown" ⟨"unknown", false⟩
        [["alice"], ["alice"], ["alice"]]).2.2 ≤ 1 :=
  (detector_debounce "unknown" ⟨"unknown", false⟩
    [["alice"], ["alice"], ["alice"]] "alice" (by decide)).1

/-! ## The Detector-to-Orchestrator handoff (driver.py lines 144-164,
facial_req.py lines 60-72)

The Orchestrator loop `SmartHomeDriver.run` executes, per tick,

    if self.face_system.new_person_found:   -- lock, read flag, unlock
        user_name = self.face_system.get_name       -- lock, read, unlock
        self.users.log_in(user_name)
        self.face_system.reset_new_person_found()   -- lock, clear, unlock

so the flag read, the name read, and the reset are three separate critical
sections, not one.  The machine below makes each critical section one
atomic action; a detector write (`_person := n; _new_person_found := true`
under the lock, facial_req.py lines 158-160) may interleave anywhere
between them. -/

/-- Program counter of the Orchestrator: the atomic sections of one tick. -/
inductive OrcPC
  | idle
  | readName
  | doLogin (n : String)
  | doReset
deriving DecidableEq, Repr

structure PipeState where
  box : IdentityBox
  pc : OrcPC
  logins : List String
deriving DecidableEq, Repr

/-- An atomic event of the pipeline: a locked detector write, or the next
atomic section of the Orchestrator. -/
inductive PipeAct
  | detWrite (n : String)
  | orc
deriving DecidableEq, Repr

def pipeStep (s : PipeState) : PipeAct → PipeState
  | .detWrite n => { s with box := ⟨n, true⟩ }
  | .orc =>
    match s.pc with
    | .idle => if s.box.changed then { s with pc := .readName } else s
    | .readName => { s with pc := .doLogin s.box.person }
    | .doLogin n => { s with pc := .doReset, logins := s.logins ++ [n] }
    | .doReset => { s with box := ⟨s.box.person, false⟩, pc := .idle }

def pipeRun (s : PipeState) (acts : List PipeAct) : PipeState :=
  acts.foldl pipeStep s

/-- Quiescent start: local name "unknown", no pending change, no logins. -/
def pipeInit : PipeState := ⟨⟨"unknown", false⟩, .idle, []⟩

/-- The interleaving that loses a transition: the detector writes "B" after
the Orchestrator has read the name "A" but before it resets the flag. -/
def orcLossTrace : List PipeAct :=
  [.detWrite "A", .orc, .orc, .orc, .detWrite "B", .orc, .orc]

/-- The distinct identity transitions written by the detector in a trace. -/
def detWrites (acts : List PipeAct) : List String :=
  acts.filterMap (fun a => match a with
    | .detWrite n => some n
    | .orc => none)

/-- Counterexample to claim C1: in `orcLossTrace` two distinct identity
transitions ("A" then "B") occur and every pending change has been polled
(the final state is quiescent: flag clear, Orchestrator idle, and a further
tick is a no-op), yet `log_in` was called once, not twice — the reads and
the reset are not one critical section, so the "B" transition is lost. -/
theorem orchestrator_atomic_counterexample :
    detWrites orcLossTrace = ["A", "B"] ∧ ("A" : String) ≠ "B" ∧
    pipeRun pipeInit orcLossTrace = ⟨⟨"B", false⟩, .idle, ["A"]⟩ ∧
    pipeStep (pipeRun pipeInit orcLossTrace) .orc =
      pipeRun pipeInit orcLossTrace ∧
    (pipeRun pipeInit orcLossTrace).logins.length ≠ 2 := by
  refine ⟨by decide, by decide, by decide, by decide, by decide⟩

/-- A full uninterrupted Orchestrator tick followed by the tail of the
trace: one transition, then the four atomic sections with no detector
write in between. -/
def transitionsTrace : List String → List PipeAct
  | [] => []
  | n :: rest => .detWrite n :: .orc :: .orc :: .orc :: .orc ::
      transitionsTrace rest

/-- Claim C1 amended: the flag read, name read and reset are three separate
critical sections, so a detector write interleaved between the name read
and the reset can be lost (`orchestrator_atomic_counterexample`).  When no
detector write interleaves inside a tick — each transition is fully polled
before the next write — no transition is lost or double-delivered: after N
transitions, `log_in` has been called exactly N times, once per transition
and in order. -/
theorem orchestrator_sequential_delivery (s : PipeState)
    (names : List String) (hpc : s.pc = OrcPC.idle)
    (hch : s.box.changed = false) :
    (pipeRun s (transitionsTrace names)).logins = s.logins ++ names ∧
    (pipeRun s (transitionsTrace names)).pc = OrcPC.idle ∧
    (pipeRun s (transitionsTrace names)).box.changed = false := by
  induction names generalizing s with
  | nil =>
    refine ⟨by simp [transitionsTrace, pipeRun], ?_, ?_⟩
    · simpa [transitionsTrace, pipeRun] using hpc
    · simpa [transitionsTrace, pipeRun] using hch
  | cons n rest ih =>
    obtain ⟨box, pc, logins⟩ := s
    simp only at hpc hch
    subst hpc
    have hfive : pipeRun ⟨box, .idle, logins⟩ (transitionsTrace (n :: rest)) =
        pipeRun ⟨⟨n, false⟩, .idle, logins ++ [n]⟩ (transitionsTrace rest) := by
      simp [transitionsTrace, pipeRun, pipeStep]
    rw [hfive]
    have := ih ⟨⟨n, false⟩, .idle, logins ++ [n]⟩ rfl rfl
    simpa [List.append_assoc] using this

/-- Witness for `orchestrator_sequential_delivery`: two transitions "A",
"B" from the quiescent initial state produce exactly the logins
["A", "B"]. -/
theorem orchestrator_sequential_delivery_witness :
    pipeInit.pc = OrcPC.idle ∧ pipeInit.box.changed = false ∧
    ((pipeRun pipeInit (transitionsTrace ["A", "B"])).logins =
        pipeInit.logins ++ ["A", "B"] ∧
      (pipeRun pipeInit (transitionsTrace ["A", "B"])).pc = OrcPC.idle ∧
      (pipeRun pipeInit (transitionsTrace ["A", "B"])).box.changed = false) :=
  ⟨rfl, rfl, orchestrator_sequential_delivery pipeInit ["A", "B"] rfl rfl⟩

/-! ## Users: session queue and Dispatcher lifecycle (logic.py lines 253-416)

`Users._statuses` is the FIFO session queue, `cur_user` the current user,
`running` the cooperative stop flag of the command-loop worker.  Operations
are modeled atomically, matching the design's serialized queue mutations;
the worker's cooperative exit on `running = false` (logic.py line 288) is
modeled as immediate, so `workers` counts the alive command-loop threads. -/

structure UsersState where
  statuses : List String
  curUser : String
  running : Bool
  workers : Nat
deriving DecidableEq, Repr

/-- Users.__init__ lines 260-263. -/
def usersInit : UsersState := ⟨[], "", false, 0⟩

/-- Users.log_in lines 270-281: spawn the command-loop thread when the
queue is empty, append the name, set `cur_user` to the queue head. -/
def log_in (s : UsersState) (name : String) : UsersState :=
  let s1 := if s.statuses = []
    then { s with workers := s.workers + 1, running := true }
    else s
  let sts := s1.statuses ++ [name]
  { s1 with statuses := sts, curUser := sts.headD "" }

/-- Users._handle_logout_command lines 375-390: pop the head; if the queue
became empty set `running := false` (the worker then exits its loop),
otherwise promote the new head to `cur_user`. -/
def handle_logout (s : UsersState) : UsersState :=
  match s.statuses with
  | [] => s
  | _ :: rest =>
    if rest = []
      then { s with statuses := rest, running := false,
                    workers := s.workers - 1 }
      else { s with statuses := rest, curUser := rest.headD "" }

/-- An operation on the session manager: a login from the Orchestrator or
a logout command from the Dispatcher. -/
inductive UserOp
  | login (n : String)
  | logoutCmd
deriving DecidableEq, Repr

def applyUserOp (s : UsersState) : UserOp → UsersState
  | .login n => log_in s n
  | .logoutCmd => handle_logout s

def runUserOps (s : UsersState) (ops : List UserOp) : UsersState :=
  ops.foldl applyUserOp s

/-- The session-manager invariant: one worker iff the queue is non-empty,
the stop flag mirrors queue non-emptiness, and the current user is the
queue head while the queue is non-empty. -/
def goodUsers (s : UsersState) : Prop :=
  s.workers = (if s.statuses = [] then 0 else 1) ∧
  s.running = (if s.statuses = [] then false else true) ∧
  (s.statuses ≠ [] → s.curUser = s.statuses.headD "")

theorem goodUsers_log_in (s : UsersState) (n : String) (h : goodUsers s) :
    goodUsers (log_in s n) := by
  obtain ⟨hw, hr, hc⟩ := h
  by_cases hs : s.statuses = []
  · refine ⟨?_, ?_, ?_⟩ <;> simp [log_in, hs, hw]
  · refine ⟨?_, ?_, ?_⟩ <;> simp [log_in, hs, hw, hr]

theorem goodUsers_logout (s : UsersState) (h : goodUsers s) :
    goodUsers (handle_logout s) := by
  obtain ⟨hw, hr, hc⟩ := h
  cases hst : s.statuses with
  | nil => exact ⟨by simp [handle_logout, hst, hst ▸ hw] , by
      simp [handle_logout, hst, hst ▸ hr], by simp [handle_logout, hst]⟩
  | cons a rest =>
    cases hrest : rest with
    | nil =>
      refine ⟨?_, ?_, ?_⟩ <;> simp [handle_logout, hst, hrest, hst ▸ hw]
    | cons b t =>
      refine ⟨?_, ?_, ?_⟩ <;>
        simp [handle_logout, hst, hrest, hst ▸ hw, hst ▸ hr]

theorem goodUsers_run (ops : List UserOp) :
    goodUsers (runUserOps usersInit ops) := by
  have hrec : ∀ l s, goodUsers s → goodUsers (runUserOps s l) := by
    intro l
    induction l with
    | nil => intro s h; exact h
    | cons op rest ih =>
      intro s h
      cases op with
      | login n => exact ih _ (goodUsers_log_in s n h)
      | logoutCmd => exact ih _ (goodUsers_logout s h)
  exact hrec ops usersInit ⟨rfl, rfl, fun h => absurd rfl h⟩

/-- Claim C3: at every state reached by a sequence of login/logout
operations, exactly one command-loop worker is alive when the queue is
non-empty and zero when it is empty; a login on an empty queue spawns the
worker, a logout that empties the queue stops it, and operations that do
not cross the empty boundary leave the worker count unchanged. -/
theorem dispatcher_lifecycle (ops : List UserOp) :
    ((runUserOps usersInit ops).statuses ≠ [] →
      (runUserOps usersInit ops).workers = 1) ∧
    ((runUserOps usersInit ops).statuses = [] →
      (runUserOps usersInit ops).workers = 0) ∧
    (∀ n, (runUserOps usersInit ops).statuses = [] →
      (log_in (runUserOps usersInit ops) n).workers =
        (runUserOps usersInit ops).workers + 1) ∧
    (∀ n, (runUserOps usersInit ops).statuses ≠ [] →
      (log_in (runUserOps usersInit ops) n).workers =
        (runUserOps usersInit ops).workers) ∧
    (∀ u, (runUserOps usersInit ops).statuses = [u] →
      (handle_logout (runUserOps usersInit ops)).workers = 0) ∧
    (∀ u rest, (runUserOps usersInit ops).statuses = u :: rest → rest ≠ [] →
      (handle_logout (runUserOps usersInit ops)).workers =
        (runUserOps usersInit ops).workers) := by
  obtain ⟨hw, hr, hc⟩ := goodUsers_run ops
  set s := runUserOps usersInit ops with hs
  refine ⟨?_, ?_, ?_, ?_, ?_, ?_⟩
  · intro hne; rw [hw, if_neg hne]
  · intro he; rw [hw, if_pos he]
  · intro n he; simp [log_in, he]
  · intro n hne; simp [log_in, hne]
  · intro u hu
    have : s.workers = 1 := by rw [hw, if_neg (by simp [hu])]
    simp [handle_logout, hu, this]
  · intro u rest hu hrest
    simp [handle_logout, hu, hrest]

/-- Witness for `dispatcher_lifecycle`: after login "alice"; login "bob";
logout (spec scenario 3) the queue is ["bob"] and one worker is alive, and
the logout that empties it stops the worker. -/
theorem dispatcher_lifecycle_witness :
    (runUserOps usersInit
        [.login "alice", .login "bob", .logoutCmd]).workers = 1 ∧
    (handle_logout (runUserOps usersInit
        [.login "alice", .login "bob", .logoutCmd])).workers = 0 :=
  ⟨(dispatcher_lifecycle
      [.login "alice", .login "bob", .logoutCmd]).1 (by decide),
   (dispatcher_lifecycle
      [.login "alice", .login "bob", .logoutCmd]).2.2.2.2.1
      "bob" (by decide)⟩

/-- Claim C6: the session queue is FIFO and the current user is its head:
`log_in` appends, the logout command pops the head and promotes the new
head; after login(A); login(B) the current user is A, and after one
further logout it is B. -/
theorem session_queue_fifo (s : UsersState) (a b : String) :
    (log_in s a).statuses = s.statuses ++ [a] ∧
    (∀ u rest, s.statuses = u :: rest →
      (handle_logout s).statuses = rest ∧
      (rest ≠ [] → (handle_logout s).curUser = rest.headD "")) ∧
    (log_in (log_in usersInit a) b).statuses = [a, b] ∧
    (log_in (log_in usersInit a) b).curUser = a ∧
    (handle_logout (log_in (log_in usersInit a) b)).curUser = b := by
  refine ⟨?_, ?_, rfl, rfl, rfl⟩
  · by_cases hs : s.statuses = [] <;> simp [log_in, hs]
  · intro u rest hu
    cases hrest : rest with
    | nil => refine ⟨by simp [handle_logout, hu, hrest], by simp [hrest]⟩
    | cons c t =>
      refine ⟨by simp [handle_logout, hu, hrest], fun _ => ?_⟩
      simp [handle_logout, hu, hrest]

/-- Witness for `session_queue_fifo` at the concrete state
⟨["alice", "bob"], "alice", true, 1⟩ and names "alice", "bob". -/
theorem session_queue_fifo_witness :
    (log_in ⟨["alice", "bob"], "alice", true, 1⟩ "alice").statuses =
      ["alice", "bob", "alice"] ∧
    (handle_logout ⟨["alice", "bob"], "alice", true, 1⟩).statuses =
      ["bob"] ∧
    (log_in (log_in usersInit "alice") "bob").curUser = "alice" ∧
    (handle_logout (log_in (log_in usersInit "alice") "bob")).curUser =
      "bob" :=
  ⟨(session_queue_fifo ⟨["alice", "bob"], "alice", true, 1⟩
      "alice" "bob").1,
   ((session_queue_fifo ⟨["alice", "bob"], "alice", true, 1⟩
      "alice" "bob").2.1 "alice" ["bob"] rfl).1,
   (session_queue_fifo ⟨["alice", "bob"], "alice", true, 1⟩
      "alice" "bob").2.2.2.1,
   (session_queue_fifo ⟨["alice", "bob"], "alice", true, 1⟩
      "alice" "bob").2.2.2.2⟩

/-- Claim C10: at every reachable state, the current user equals the queue
head whenever the queue is non-empty; a logout that empties the queue does
not clear `cur_user` — it retains the name of the user just logged out —
and `cur_user` keeps that value under further logouts on the empty queue
until the next `log_in` replaces it with the new head. -/
theorem cur_user_head_retention (ops : List UserOp) :
    ((runUserOps usersInit ops).statuses ≠ [] →
      (runUserOps usersInit ops).curUser =
        (runUserOps usersInit ops).statuses.headD "") ∧
    (∀ u, (runUserOps usersInit ops).statuses = [u] →
      (handle_logout (runUserOps usersInit ops)).statuses = [] ∧
      (handle_logout (runUserOps usersInit ops)).curUser = u) ∧
    ((runUserOps usersInit ops).statuses = [] →
      (handle_logout (runUserOps usersInit ops)).curUser =
        (runUserOps usersInit ops).curUser ∧
      ∀ n, (log_in (runUserOps usersInit ops) n).curUser = n) := by
  obtain ⟨hw, hr, hc⟩ := goodUsers_run ops
  set s := runUserOps usersInit ops with hs
  refine ⟨hc, ?_, ?_⟩
  · intro u hu
    have hcu : s.curUser = u := by
      have := hc (by simp [hu])
      simpa [hu] using this
    refine ⟨by simp [handle_logout, hu], by simp [handle_logout, hu, hcu]⟩
  · intro he
    refine ⟨by simp [handle_logout, he], fun n => by simp [log_in, he]⟩

/-- Witness for `cur_user_head_retention` after the single operation
login "alice": the queue is ["alice"], and logging out empties it while
retaining cur_user = "alice". -/
theorem cur_user_head_retention_witness :
    (runUserOps usersInit [.login "alice"]).curUser =
      (runUserOps usersInit [.login "alice"]).statuses.headD "" ∧
    (handle_logout (runUserOps usersInit [.login "alice"])).statuses =
      [] ∧
    (handle_logout (runUserOps usersInit [.login "alice"])).curUser =
      "alice" :=
  ⟨(cur_user_head_retention [.login "alice"]).1 (by decide),
   ((cur_user_head_retention [.login "alice"]).2.1 "alice" (by decide)).1,
   ((cur_user_head_retention [.login "alice"]).2.1 "alice" (by decide)).2⟩

/-! ## Error taxonomy (error_handler.py lines 14-67)

A `SmartHomeError` value carries message, severity, component and the
recoverable flag; the subclasses fix component/severity/recoverable. -/

inductive ErrSeverity
  | low
  | medium
  | high
  | critical
deriving DecidableEq, Repr

structure SmartHomeErr where
  message : String
  severity : ErrSeverity
  component : String
  recoverable : Bool
deriving DecidableEq, Repr

/-- WeatherError (error_handler.py lines 58-61). -/
def weatherErr (msg : String) : SmartHomeErr := ⟨msg, .low, "weather", true⟩

/-- SmartLightError (error_handler.py lines 52-55). -/
def smartLightErr (msg : String) : SmartHomeErr :=
  ⟨msg, .medium, "smart_lights", true⟩

/-- SmartHomeError with component "music" and the default severity and
recoverable flag (error_handler.py lines 25-31, logic.py lines 236-250). -/
def musicErr (msg : String) : SmartHomeErr := ⟨msg, .medium, "music", true⟩

/-- ConfigurationError (error_handler.py lines 64-67): the only class
marked non-recoverable. -/
def configurationErr (msg : String) : SmartHomeErr :=
  ⟨msg, .high, "configuration", false⟩

/-! ## Association lists with Python dict semantics -/

def alookup {α : Type} : List (String × α) → String → Option α
  | [], _ => none
  | q :: m, k => if q.1 = k then some q.2 else alookup m k

def hasKey {α : Type} : List (String × α) → String → Bool
  | [], _ => false
  | q :: m, k => if q.1 = k then true else hasKey m k

/-- Python dict assignment `m[k] = v`: overwrite in place or append. -/
def aset {α : Type} (m : List (String × α)) (k : String) (v : α) :
    List (String × α) :=
  if hasKey m k
    then m.map (fun q => if q.1 = k then (k, v) else q)
    else m ++ [(k, v)]

theorem alookup_aset {α : Type} (m : List (String × α)) (k : String)
    (v : α) : alookup (aset m k v) k = some v := by
  induction m with
  | nil => simp [aset, hasKey, alookup]
  | cons q m ih =>
    by_cases hq : q.1 = k
    · have h1 : aset (q :: m) k v =
          (k, v) :: m.map (fun r => if r.1 = k then (k, v) else r) := by
        simp [aset, hasKey, hq]
      rw [h1]
      simp [alookup]
    · by_cases hm : hasKey m k = true
      · have h1 : aset (q :: m) k v =
            q :: m.map (fun r => if r.1 = k then (k, v) else r) := by
          simp [aset, hasKey, hq, hm]
        have h2 : aset m k v =
            m.map (fun r => if r.1 = k then (k, v) else r) := by
          simp [aset, hm]
        rw [h1]
        simp only [alookup, if_neg hq]
        rw [← h2]
        exact ih
      · have h1 : aset (q :: m) k v = q :: (m ++ [(k, v)]) := by
          simp [aset, hasKey, hq, hm]
        have h2 : aset m k v = m ++ [(k, v)] := by simp [aset, hm]
        rw [h1]
        simp only [alookup, if_neg hq]
        rw [← h2]
        exact ih


/-! ## WeatherService (logic.py lines 21-124)

The backend interaction of one call is an input: either an HTTP response
(status code and text) or a raised requests exception.  Each function
returns its result together with the `WeatherService` state (`cache`,
`last_cache_time`) at the moment it returns or raises, plus the number of
backend HTTP requests it issued. -/

structure WeatherSettings where
  cacheDuration : Int
  useMockData : Bool
  apiUrl : String
  location : String
deriving DecidableEq, Repr

structure WeatherState where
  cache : List (String × String)
  lastCacheTime : List (String × Int)
deriving DecidableEq, Repr

inductive HttpResult
  | response (status : Nat) (text : String)
  | requestExn (msg : String)
deriving DecidableEq, Repr

/-- logic.py lines 74-80. -/
def formatMapping : List (String × String) :=
  [("temp", "t_2m:F"), ("wind", "wind_speed_10m:ms"),
   ("precip", "precip_24h:mm"), ("sunrise", "sunrise:sql"),
   ("sunset", "sunset:sql")]

/-- WeatherService._parse_weather_response lines 108-111. -/
def parse_weather_response (text fmt : String) : String :=
  "Weather data for " ++ fmt ++ ": " ++ text.take 50 ++ "..."

/-- WeatherService._cache_weather_data lines 113-117. -/
def cache_weather_data (s : WeatherState) (fmt data : String) (now : Int) :
    WeatherState :=
  ⟨aset s.cache ("weather_" ++ fmt) data,
   aset s.lastCacheTime ("weather_" ++ fmt) now⟩

/-- WeatherService._is_cache_valid lines 119-124: valid iff the key is in
both maps and the age is strictly under the duration. -/
def is_cache_valid (s : WeatherState) (key : String) (now dur : Int) :
    Bool :=
  match alookup s.cache key, alookup s.lastCacheTime key with
  | some _, some t => decide (now - t < dur)
  | _, _ => false

/-- WeatherService._get_mock_weather lines 59-68. -/
def get_mock_weather (fmt : String) : String :=
  (alookup [("temp", "72°F"), ("wind", "8 MPH"), ("precip", "0.1 inches"),
    ("sunrise", "6:30 AM"), ("sunset", "7:45 PM")] fmt).getD
    "Weather data not available"

/-- WeatherService._get_real_weather lines 70-106: unknown format raises
before any request; a non-200 status or a requests exception raises a
WeatherError after the one request; only the 200 path caches. -/
def get_real_weather (s : WeatherState) (fmt : String) (http : HttpResult)
    (now : Int) : Except SmartHomeErr String × WeatherState × Nat :=
  match alookup formatMapping fmt with
  | none => (.error (weatherErr ("Unknown weather format: " ++ fmt)), s, 0)
  | some _ =>
    match http with
    | .response status text =>
      if status = 200 then
        let data := parse_weather_response text fmt
        (.ok data, cache_weather_data s fmt data now, 1)
      else
        (.error (weatherErr ("Weather API returned status " ++
          toString status)), s, 1)
    | .requestExn m =>
      (.error (weatherErr ("Weather API request failed: " ++ m)), s, 1)

/-- WeatherService.get_weather body (lines 41-57, before the decorator):
cache check, then mock data, then the real backend; any exception escaping
the body is re-raised as a WeatherError with a wrapped message. -/
def get_weather_body (s : WeatherState) (fmt : String)
    (st : WeatherSettings) (http : HttpResult) (now : Int) :
    Except SmartHomeErr String × WeatherState × Nat :=
  if is_cache_valid s ("weather_" ++ fmt) now st.cacheDuration then
    match alookup s.cache ("weather_" ++ fmt) with
    | some v => (.ok v, s, 0)
    | none =>
      (.error (weatherErr "Failed to get weather data: KeyError"), s, 0)
  else if st.useMockData then
    (.ok (get_mock_weather fmt), s, 0)
  else
    match get_real_weather s fmt http now with
    | (.ok v, s2, n) => (.ok v, s2, n)
    | (.error e, s2, n) =>
      (.error (weatherErr ("Failed to get weather data: " ++ e.message)),
        s2, n)

/-- The decorated WeatherService.get_weather as its callers see it: the
handle errors wrapper (error_handler.py lines 231-259) consumes any raised
error and returns None. -/
def get_weather (s : WeatherState) (fmt : String) (st : WeatherSettings)
    (http : HttpResult) (now : Int) : Option String × WeatherState × Nat :=
  match get_weather_body s fmt st http now with
  | (.ok v, s2, n) => (some v, s2, n)
  | (.error _, s2, n) => (none, s2, n)

theorem is_cache_valid_lookup (s : WeatherState) (key : String)
    (now dur : Int) (h : is_cache_valid s key now dur = true) :
    ∃ v, alookup s.cache key = some v := by
  cases hc : alookup s.cache key with
  | some v => exact ⟨v, rfl⟩
  | none =>
    rw [is_cache_valid, hc] at h
    cases alookup s.lastCacheTime key <;> simp at h

theorem is_cache_valid_cached (s : WeatherState) (fmt data : String)
    (t1 t2 dur : Int) :
    is_cache_valid (cache_weather_data s fmt data t1) ("weather_" ++ fmt)
      t2 dur = decide (t2 - t1 < dur) := by
  rw [is_cache_valid, cache_weather_data]
  simp [alookup_aset]

theorem get_weather_hit (s : WeatherState) (fmt : String)
    (st : WeatherSettings) (http : HttpResult) (now : Int) (v : String)
    (hvalid : is_cache_valid s ("weather_" ++ fmt) now st.cacheDuration =
      true)
    (hv : alookup s.cache ("weather_" ++ fmt) = some v) :
    get_weather s fmt st http now = (some v, s, 0) := by
  simp [get_weather, get_weather_body, hvalid, hv]

theorem get_weather_miss_200 (s : WeatherState) (fmt text : String)
    (st : WeatherSettings) (t1 : Int)
    (hmiss : is_cache_valid s ("weather_" ++ fmt) t1 st.cacheDuration =
      false)
    (hmock : st.useMockData = false)
    (hfmt : (alookup formatMapping fmt).isSome = true) :
    get_weather s fmt st (.response 200 text) t1 =
      (some (parse_weather_response text fmt),
       cache_weather_data s fmt (parse_weather_response text fmt) t1, 1) := by
  obtain ⟨a, ha⟩ := Option.isSome_iff_exists.mp hfmt
  simp [get_weather, get_weather_body, get_real_weather, hmiss, hmock, ha]

theorem get_weather_count_miss (s : WeatherState) (fmt : String)
    (st : WeatherSettings) (http : HttpResult) (now : Int)
    (hmiss : is_cache_valid s ("weather_" ++ fmt) now st.cacheDuration =
      false)
    (hmock : st.useMockData = false)
    (hfmt : (alookup formatMapping fmt).isSome = true) :
    (get_weather s fmt st http now).2.2 = 1 := by
  obtain ⟨a, ha⟩ := Option.isSome_iff_exists.mp hfmt
  cases http with
  | response status text =>
    by_cases hs : status = 200 <;>
      simp [get_weather, get_weather_body, get_real_weather,
        hmiss, hmock, ha, hs]
  | requestExn m =>
    simp [get_weather, get_weather_body, get_real_weather, hmiss, hmock, ha]

/-- Counterexample to claim C4: at a concrete backend failure (HTTP 500,
cold cache, mock mode off), the body of `get_weather` raises a
Weather-kind error, but the decorated `get_weather` that its callers
invoke returns None — no exception reaches the caller, because the handle
errors wrapper consumes it.  The cache and timestamp maps are unchanged
(that half of the claim does hold). -/
theorem weather_failure_counterexample :
    (get_weather_body ⟨[], []⟩ "temp" ⟨300, false, "u", "l"⟩
        (.response 500 "oops") 0).1 =
      Except.error (weatherErr
        "Failed to get weather data: Weather API returned status 500") ∧
    get_weather ⟨[], []⟩ "temp" ⟨300, false, "u", "l"⟩
        (.response 500 "oops") 0 = (none, ⟨[], []⟩, 1) :=
  ⟨rfl, rfl⟩

/-- Claim C4 amended: for every `get_weather` call whose backend request
fails (non-200 status or a requests exception), the body raises a
Weather-kind error (component "weather", low severity, recoverable) which
the handle errors decorator consumes, so the caller receives None rather
than an exception; the cache and cache-timestamp maps are left unchanged
on this failure path. -/
theorem weather_failure_no_cache (s : WeatherState) (fmt : String)
    (st : WeatherSettings) (http : HttpResult) (now : Int)
    (hmiss : is_cache_valid s ("weather_" ++ fmt) now st.cacheDuration =
      false)
    (hmock : st.useMockData = false)
    (hfmt : (alookup formatMapping fmt).isSome = true)
    (hfail : ∀ text, http ≠ HttpResult.response 200 text) :
    (∃ e, (get_weather_body s fmt st http now).1 = Except.error e ∧
      e.component = "weather" ∧ e.severity = ErrSeverity.low ∧
      e.recoverable = true) ∧
    (get_weather_body s fmt st http now).2.1 = s ∧
    get_weather s fmt st http now = (none, s, 1) := by
  obtain ⟨a, ha⟩ := Option.isSome_iff_exists.mp hfmt
  cases http with
  | response status text =>
    have hs : ¬(status = 200) := by
      intro h
      exact hfail text (by rw [h])
    refine ⟨⟨weatherErr ("Failed to get weather data: " ++
        ("Weather API returned status " ++ toString status)),
        ?_, rfl, rfl, rfl⟩, ?_, ?_⟩ <;>
      simp [get_weather, get_weather_body, get_real_weather, weatherErr,
        hmiss, hmock, ha, hs]
  | requestExn m =>
    refine ⟨⟨weatherErr ("Failed to get weather data: " ++
        ("Weather API request failed: " ++ m)), ?_, rfl, rfl, rfl⟩,
        ?_, ?_⟩ <;>
      simp [get_weather, get_weather_body, get_real_weather, weatherErr,
        hmiss, hmock, ha]

/-- Witness for `weather_failure_no_cache`: a requests exception on a cold
cache leaves the state empty and yields None. -/
theorem weather_failure_no_cache_witness :
    (∃ e, (get_weather_body ⟨[], []⟩ "wind" ⟨300, false, "u", "l"⟩
        (.requestExn "timeout") 7).1 = Except.error e ∧
      e.component = "weather" ∧ e.severity = ErrSeverity.low ∧
      e.recoverable = true) ∧
    (get_weather_body ⟨[], []⟩ "wind" ⟨300, false, "u", "l"⟩
        (.requestExn "timeout") 7).2.1 = ⟨[], []⟩ ∧
    get_weather ⟨[], []⟩ "wind" ⟨300, false, "u", "l"⟩
        (.requestExn "timeout") 7 = (none, ⟨[], []⟩, 1) :=
  weather_failure_no_cache ⟨[], []⟩ "wind" ⟨300, false, "u", "l"⟩
    (.requestExn "timeout") 7 rfl rfl rfl (fun text h => by cases h)

/-- Claim C7: after a first `get_weather` call `r1` that misses the cache
and gets a 200 response, a second call while the cached value's age is
strictly under the TTL returns the identical value without touching the
backend (so the backend was invoked at most once across the two calls),
while a second call at or past the TTL finds the cache invalid and issues
a backend request again. -/
theorem weather_cache_ttl (s : WeatherState) (fmt text : String)
    (st : WeatherSettings) (http2 : HttpResult) (t1 t2 : Int)
    (r1 : Option String × WeatherState × Nat)
    (hmock : st.useMockData = false)
    (hfmt : (alookup formatMapping fmt).isSome = true)
    (hmiss : is_cache_valid s ("weather_" ++ fmt) t1 st.cacheDuration =
      false)
    (hr1 : r1 = get_weather s fmt st (HttpResult.response 200 text) t1) :
    (t2 - t1 < st.cacheDuration →
      get_weather r1.2.1 fmt st http2 t2 = (r1.1, r1.2.1, 0) ∧
      r1.2.2 + (get_weather r1.2.1 fmt st http2 t2).2.2 ≤ 1) ∧
    (st.cacheDuration ≤ t2 - t1 →
      is_cache_valid r1.2.1 ("weather_" ++ fmt) t2 st.cacheDuration =
        false ∧
      (get_weather r1.2.1 fmt st http2 t2).2.2 = 1) := by
  subst hr1
  rw [get_weather_miss_200 s fmt text st t1 hmiss hmock hfmt]
  constructor
  · intro hlt
    have hvalid : is_cache_valid
        (cache_weather_data s fmt (parse_weather_response text fmt) t1)
        ("weather_" ++ fmt) t2 st.cacheDuration = true := by
      rw [is_cache_valid_cached]
      exact decide_eq_true hlt
    have hhit := get_weather_hit
      (cache_weather_data s fmt (parse_weather_response text fmt) t1)
      fmt st http2 t2 (parse_weather_response text fmt) hvalid
      (by simp [cache_weather_data, alookup_aset])
    exact ⟨hhit, by simp [hhit]⟩
  · intro hge
    have hinvalid : is_cache_valid
        (cache_weather_data s fmt (parse_weather_response text fmt) t1)
        ("weather_" ++ fmt) t2 st.cacheDuration = false := by
      rw [is_cache_valid_cached]
      exact decide_eq_false (not_lt.mpr hge)
    exact ⟨hinvalid, get_weather_count_miss _ fmt st http2 t2
      hinvalid hmock hfmt⟩

/-- The concrete settings used by the cache-TTL witness. -/
def wSt : WeatherSettings := ⟨300, false, "u", "l"⟩

/-- The first, cache-cold "temp" call of the cache-TTL witness. -/
def wFirst : Option String × WeatherState × Nat :=
  get_weather ⟨[], []⟩ "temp" wSt (HttpResult.response 200 "x") 0

/-- Witness for `weather_cache_ttl`: a cold "temp" call at time 0 with a
300-second TTL, probed again at time 10. -/
theorem weather_cache_ttl_witness :
    (10 - 0 < wSt.cacheDuration →
      get_weather wFirst.2.1 "temp" wSt (HttpResult.requestExn "down") 10 =
        (wFirst.1, wFirst.2.1, 0) ∧
      wFirst.2.2 + (get_weather wFirst.2.1 "temp" wSt
          (HttpResult.requestExn "down") 10).2.2 ≤ 1) ∧
    (wSt.cacheDuration ≤ 10 - 0 →
      is_cache_valid wFirst.2.1 ("weather_" ++ "temp") 10
          wSt.cacheDuration = false ∧
      (get_weather wFirst.2.1 "temp" wSt
          (HttpResult.requestExn "down") 10).2.2 = 1) :=
  weather_cache_ttl ⟨[], []⟩ "temp" "x" wSt (HttpResult.requestExn "down")
    0 10 wFirst rfl rfl rfl rfl

/-! ## SmartLightController and MusicPlayer (logic.py lines 127-250)

Subprocess invocations are inputs: an exit (code, stdout, stderr) or a
timeout.  Failures of the brightness and color sub-commands are only
logged (logic.py lines 174-175, 183-184); a timeout anywhere in the try
block and a non-zero exit of the main command raise. -/

inductive ProcResult
  | exit (code : Int) (stdout stderr : String)
  | timeout
deriving DecidableEq, Repr

structure LightSettings where
  kasaHost : String
  colors : List (String × List Nat)
deriving DecidableEq, Repr

/-- SmartLightController._get_color_values lines 206-209. -/
def get_color_values (settings : LightSettings) (colorName : String) :
    Option (List Nat) :=
  alookup settings.colors colorName.toLower

/-- The color step of _turn_on_lights (lines 177-184): unknown color names
are silently skipped; a non-zero exit only warns; a timeout raises. -/
def colorStep (settings : LightSettings) (color : Option String)
    (procColor : ProcResult) : Except SmartHomeErr Bool :=
  match color with
  | none => .ok true
  | some c =>
    match get_color_values settings c with
    | none => .ok true
    | some _ =>
      match procColor with
      | .timeout => .error (smartLightErr "Light control command timed out")
      | .exit _ _ _ => .ok true

/-- The brightness step of _turn_on_lights (lines 169-175): the value is
clamped to [0, 100] before dispatch; a non-zero exit only warns; a
timeout raises. -/
def brightnessStep (settings : LightSettings) (brightness : Option Int)
    (procBright : ProcResult) (color : Option String)
    (procColor : ProcResult) : Except SmartHomeErr Bool :=
  match brightness with
  | none => colorStep settings color procColor
  | some _ =>
    match procBright with
    | .timeout => .error (smartLightErr "Light control command timed out")
    | .exit _ _ _ => colorStep settings color procColor

/-- SmartLightController._turn_on_lights lines 160-191. -/
def turn_on_lights (settings : LightSettings) (brightness : Option Int)
    (color : Option String) (procOn procBright procColor : ProcResult) :
    Except SmartHomeErr Bool :=
  match procOn with
  | .timeout => .error (smartLightErr "Light control command timed out")
  | .exit code _ stderr =>
    if code ≠ 0
      then .error (smartLightErr ("Failed to turn on lights: " ++ stderr))
      else brightnessStep settings brightness procBright color procColor

/-- SmartLightController._turn_off_lights lines 193-204. -/
def turn_off_lights (procOff : ProcResult) : Except SmartHomeErr Bool :=
  match procOff with
  | .timeout => .error (smartLightErr "Light control command timed out")
  | .exit code _ stderr =>
    if code ≠ 0
      then .error (smartLightErr ("Failed to turn off lights: " ++ stderr))
      else .ok true

/-- SmartLightController.control_lights body (lines 135-158, before the
decorator): dispatch on the action; any exception escaping the inner calls
(including the "Unknown action" SmartLightError) is re-raised as a
SmartLightError with a wrapped message. -/
def control_lights_body (settings : LightSettings) (action : String)
    (brightness : Option Int) (color : Option String)
    (procOn procBright procColor procOff : ProcResult) :
    Except SmartHomeErr Bool :=
  if action = "on" then
    match turn_on_lights settings brightness color
        procOn procBright procColor with
    | .ok b => .ok b
    | .error e =>
      .error (smartLightErr ("Light control failed: " ++ e.message))
  else if action = "off" then
    match turn_off_lights procOff with
    | .ok b => .ok b
    | .error e =>
      .error (smartLightErr ("Light control failed: " ++ e.message))
  else
    .error (smartLightErr ("Light control failed: " ++
      ("Unknown action: " ++ action)))

structure MusicSettings where
  defaultFile : String
  player : String
deriving DecidableEq, Repr

/-- MusicPlayer.play_music body (lines 220-250, before the decorator).
The "file not found" and "non-zero exit" SmartHomeErrors raised inside the
try block are caught by the enclosing generic except and re-raised with the
"Music playback failed: " prefix (hence the doubled prefix on the
non-zero-exit path); a timeout raises its own message. -/
def play_music_body (settings : MusicSettings) (filePath : Option String)
    (fileExists : Bool) (proc : ProcResult) : Except SmartHomeErr Bool :=
  let path := filePath.getD settings.defaultFile
  if fileExists = false then
    .error (musicErr ("Music playback failed: " ++
      ("Music file not found: " ++ path)))
  else
    match proc with
    | .timeout => .error (musicErr "Music playback timed out")
    | .exit code _ stderr =>
      if code ≠ 0
        then .error (musicErr ("Music playback failed: " ++
          ("Music playback failed: " ++ stderr)))
        else .ok true

/-- The handle errors decorator (error_handler.py lines 231-259): a raised
SmartHomeError (or any exception, converted to one) is passed to a fresh
ErrorHandler and the wrapper returns None; a normal result passes
through. -/
def handleErrorsWrap {α : Type} (r : Except SmartHomeErr α) : Option α :=
  match r with
  | .ok a => some a
  | .error _ => none

/-- The decorated SmartLightController.control_lights. -/
def control_lights (settings : LightSettings) (action : String)
    (brightness : Option Int) (color : Option String)
    (procOn procBright procColor procOff : ProcResult) : Option Bool :=
  handleErrorsWrap (control_lights_body settings action brightness color
    procOn procBright procColor procOff)

/-- The decorated MusicPlayer.play_music. -/
def play_music (settings : MusicSettings) (filePath : Option String)
    (fileExists : Bool) (proc : ProcResult) : Option Bool :=
  handleErrorsWrap (play_music_body settings filePath fileExists proc)

/-- Claim C9: none of the decorated service operations propagates an
exception to its caller: whenever the body of get_weather,
control_lights or play_music raises (any SmartHomeError, or a generic
exception converted to one), the decorated call returns None instead of
its declared str/bool result; and in general the wrapper yields a value
(some) exactly when the body returned normally. -/
theorem handle_errors_no_propagation :
    (∀ s fmt st http now e s2 n,
      get_weather_body s fmt st http now = (Except.error e, s2, n) →
      (get_weather s fmt st http now).1 = none) ∧
    (∀ ls action br color p1 p2 p3 p4 e,
      control_lights_body ls action br color p1 p2 p3 p4 =
        Except.error e →
      control_lights ls action br color p1 p2 p3 p4 = none) ∧
    (∀ ms fp fe proc e,
      play_music_body ms fp fe proc = Except.error e →
      play_music ms fp fe proc = none) ∧
    (∀ (α : Type) (r : Except SmartHomeErr α),
      (handleErrorsWrap r).isSome = r.isOk) := by
  refine ⟨?_, ?_, ?_, ?_⟩
  · intro s fmt st http now e s2 n h
    rw [get_weather, h]
  · intro ls action br color p1 p2 p3 p4 e h
    rw [control_lights, h]
    rfl
  · intro ms fp fe proc e h
    rw [play_music, h]
    rfl
  · intro α r
    cases r <;> rfl

/-- Witness for `handle_errors_no_propagation`: a failing body in each of
the three services yields None from the decorated call. -/
theorem handle_errors_no_propagation_witness :
    (get_weather ⟨[], []⟩ "temp" ⟨300, false, "u", "l"⟩
        (.requestExn "down") 0).1 = none ∧
    control_lights ⟨"host", []⟩ "blink" none none
        (.exit 0 "" "") (.exit 0 "" "") (.exit 0 "" "") (.exit 0 "" "") =
      none ∧
    play_music ⟨"music.mp3", "mpg123"⟩ none false (.exit 0 "" "") =
      none :=
  ⟨handle_errors_no_propagation.1 ⟨[], []⟩ "temp" ⟨300, false, "u", "l"⟩
      (.requestExn "down") 0 _ _ _ rfl,
   handle_errors_no_propagation.2.1 ⟨"host", []⟩ "blink" none none
      (.exit 0 "" "") (.exit 0 "" "") (.exit 0 "" "") (.exit 0 "" "")
      _ rfl,
   handle_errors_no_propagation.2.2.1 ⟨"music.mp3", "mpg123"⟩ none false
      (.exit 0 "" "") _ rfl⟩

/-! ## ErrorHandler (error_handler.py lines 70-229)

The recovery strategies are the stubs registered in
_setup_recovery_strategies; each returns True.  `handle_error` returns its
result together with the updated per-component counters and the list of
components whose recovery strategy was invoked. -/

/-- ErrorHandler._setup_recovery_strategies lines 79-88 with the stub
strategies of lines 154-213. -/
def recoveryStrategies : List (String × (SmartHomeErr → Bool)) :=
  [("camera", fun _ => true), ("voice", fun _ => true),
   ("facial_recognition", fun _ => true), ("smart_lights", fun _ => true),
   ("weather", fun _ => true), ("configuration", fun _ => true)]

/-- ErrorHandler._attempt_recovery lines 140-152: look the strategy up by
component; a missing strategy logs and returns False.  Also returns the
components whose strategy was invoked. -/
def attempt_recovery (e : SmartHomeErr) : Bool × List String :=
  match alookup recoveryStrategies e.component with
  | some f => (f e, [e.component])
  | none => (false, [])

/-- ErrorHandler._update_error_count lines 136-138. -/
def update_error_count (m : List (String × Nat)) (component : String) :
    List (String × Nat) :=
  aset m component ((alookup m component).getD 0 + 1)

/-- ErrorHandler.handle_error lines 90-117: log, bump the counter, then
attempt recovery only when the error is recoverable; a non-recoverable
error returns False with no recovery attempt. -/
def handle_error (counts : List (String × Nat)) (e : SmartHomeErr) :
    Bool × List (String × Nat) × List String :=
  let counts2 := update_error_count counts e.component
  if e.recoverable then
    let r := attempt_recovery e
    (r.1, counts2, r.2)
  else
    (false, counts2, [])

/-- Claim C8: a non-recoverable error never has a recovery strategy
invoked and the call returns failure; a strategy is invoked only for
recoverable errors; and a recoverable error whose component has no
registered strategy also returns failure with no strategy invoked. -/
theorem nonrecoverable_no_recovery :
    (∀ counts e, e.recoverable = false →
      (handle_error counts e).1 = false ∧
      (handle_error counts e).2.2 = []) ∧
    (∀ counts e, (handle_error counts e).2.2 ≠ [] →
      e.recoverable = true) ∧
    (∀ counts e, e.recoverable = true →
      alookup recoveryStrategies e.component = none →
      (handle_error counts e).1 = false ∧
      (handle_error counts e).2.2 = []) := by
  refine ⟨?_, ?_, ?_⟩
  · intro counts e h
    constructor <;> simp [handle_error, h]
  · intro counts e h
    by_cases hr : e.recoverable = true
    · exact hr
    · exfalso
      apply h
      have hf : e.recoverable = false := by simpa using hr
      simp [handle_error, hf]
  · intro counts e hrec hnone
    constructor <;> simp [handle_error, attempt_recovery, hrec, hnone]

/-- Witness for `nonrecoverable_no_recovery`: a ConfigurationError (the
non-recoverable class) is rejected without invoking any strategy, and a
recoverable error of an unregistered component also fails without
recovery. -/
theorem nonrecoverable_no_recovery_witness :
    ((handle_error [] (configurationErr "bad config")).1 = false ∧
      (handle_error [] (configurationErr "bad config")).2.2 = []) ∧
    ((handle_error [] (musicErr "player died")).1 = false ∧
      (handle_error [] (musicErr "player died")).2.2 = []) :=
  ⟨nonrecoverable_no_recovery.1 [] (configurationErr "bad config") rfl,
   nonrecoverable_no_recovery.2.2 [] (musicErr "player died") rfl rfl⟩

end SmartHome
